import Mathlib

/-!
Verification of the real-time animation core of the Contact_page repository:
the rate-limited frame scheduler (`src/utils/useFrameRate.jsx`), the bounded
particle simulation (`src/utils/useOptimizedParticles.jsx`), the camera
state machine of the `Frames` component, and the mouse parallax controller
(`src/MouseCameraController.jsx`).

Time, camera coordinates and the scheduler state are modelled over `ℚ`
(the JS code only adds, multiplies, divides and compares these numbers, so
the rational model is exact and executable); the particle simulation uses
`Real.sin`, `Real.cos`, `Real.sqrt` and `Math.atan2`, so it is modelled
over `ℝ`.
-/

namespace ContactPage

/- ===================================================================
   Rate-limited scheduler: `useFrameRate(callback, fps, enabled)` from
   src/src/utils/useFrameRate.jsx lines 11-31.

   Per render tick the hook receives `(state, delta)`, accumulates
   `frameRef.current += delta`, and when the accumulator reaches
   `targetInterval = 1 / fps` it invokes the callback with
   `actualDelta = state.clock.elapsedTime - lastTimeRef.current`, then
   resets `frameRef.current = 0` and `lastTimeRef.current = currentTime`.
   =================================================================== -/

/-- Mutable state of one `useFrameRate` subscription: `frameRef.current`
(the accumulator) and `lastTimeRef.current` (elapsed time of the previous
invocation, initially 0). -/
structure FRState where
  acc : ℚ
  lastTime : ℚ
deriving DecidableEq, Repr

/-- The JS test `frameRef.current >= 1 / fps`.  In JS floating point,
`1 / 0 = Infinity`, and a finite accumulator is never `>= Infinity`, so for
`fps = 0` the test is always false; for `fps ≠ 0` the quotient is finite
and the comparison is the rational one. -/
def fireCond (fps acc : ℚ) : Bool :=
  if fps = 0 then false else decide (1 / fps ≤ acc)

/-- One render tick of `useFrameRate` (lines 15-30): returns the updated
refs and `some actualDelta` when the callback was invoked on this tick. -/
def frStep (fps : ℚ) (enabled : Bool) (st : FRState) (elapsed delta : ℚ) :
    FRState × Option ℚ :=
  if !enabled then (st, none)
  else
    let acc := st.acc + delta
    if fireCond fps acc then (⟨0, elapsed⟩, some (elapsed - st.lastTime))
    else (⟨acc, st.lastTime⟩, none)

/-- Run `useFrameRate` over a whole sequence of render ticks, each tick a
pair `(elapsedTime, delta)`; one output entry per tick, `some d` when the
callback fired with `actualDelta = d`. -/
def frRun (fps : ℚ) (enabled : Bool) : FRState → List (ℚ × ℚ) → List (Option ℚ)
  | _, [] => []
  | st, (e, d) :: rest =>
    let r := frStep fps enabled st e d
    r.2 :: frRun fps enabled r.1 rest

/-- Modelled from the spec (RateLimitedScheduler, section 4.1), for the
refinement claim: keep the list of per-tick deltas accumulated since the
last invocation; fire when their sum has reached `1 / rateHz`, passing
`sample.elapsedTime - lastFireTime`, then forget the pending deltas and
set `lastFireTime` to the current elapsed time. -/
def specRun (rate : ℚ) : ℚ → List ℚ → List (ℚ × ℚ) → List (Option ℚ)
  | _, _, [] => []
  | lastFire, pending, (e, d) :: rest =>
    let pend := pending ++ [d]
    if 1 / rate ≤ pend.sum then some (e - lastFire) :: specRun rate e [] rest
    else none :: specRun rate lastFire pend rest

/- ===================================================================
   Camera-side vector algebra over ℚ.
   =================================================================== -/

/-- A 3-component vector with rational coordinates. -/
structure V3 where
  x : ℚ
  y : ℚ
  z : ℚ
deriving DecidableEq, Repr

/-- `THREE.Vector3.lerp(v, alpha)`: each component moves by `alpha` times
the remaining distance. -/
def lerpV3 (a b : V3) (t : ℚ) : V3 :=
  ⟨a.x + (b.x - a.x) * t, a.y + (b.y - a.y) * t, a.z + (b.z - a.z) * t⟩

/-- Dot product of two rational 3-vectors. -/
def dotV3 (a b : V3) : ℚ :=
  a.x * b.x + a.y * b.y + a.z * b.z

/-- An affine world transform (the rotation/scale rows plus translation),
standing for a scene object's parent world matrix. -/
structure WorldT where
  r0 : V3
  r1 : V3
  r2 : V3
  t : V3
deriving DecidableEq, Repr

/-- `object.localToWorld(v)`: apply the world matrix to a local point. -/
def applyWT (w : WorldT) (v : V3) : V3 :=
  ⟨dotV3 w.r0 v + w.t.x, dotV3 w.r1 v + w.t.y, dotV3 w.r2 v + w.t.z⟩

/- ===================================================================
   Per-frame camera writers.  The numeric smoothing functions come from
   external libraries (`maath/easing` damping, THREE's look-at matrix),
   so they are opaque parameters here; the guards deciding whether and
   with which arguments they are invoked are taken from the source.
   =================================================================== -/

/-- Opaque smoothing/orientation primitives: `easing.damp` on a scalar,
`easing.damp3` on a vector, `easing.dampQ` on an orientation, and the
look-at orientation construction (`calculateLookAtQuaternion`,
`camera.lookAt`).  `Q` is the orientation representation. -/
structure EaseFns (Q : Type) where
  dampF : ℚ → ℚ → ℚ → ℚ → ℚ
  damp3 : V3 → V3 → ℚ → ℚ → V3
  dampQ : Q → Q → ℚ → ℚ → Q
  lookAtQ : V3 → V3 → Q

/-- The camera transform read by the renderer each frame. -/
structure Cam (Q : Type) where
  pos : V3
  quat : Q
  fov : ℚ

/-- The cursor normalisation of `MouseCameraController`'s mousemove
handler (line 19): `(event.clientX / window.innerWidth) * 2 - 1`. -/
def normalizedMouseX (clientX innerWidth : ℚ) : ℚ :=
  clientX / innerWidth * 2 - 1

/-- One `useFrame` tick of `MouseCameraController` (lines 26-39):
`targetX = base.x + mouseX * 0.5`, the target vector is
`(targetX, base.y, base.z)`, the whole camera position lerps toward it
with factor `0.05`, and then — whenever the look-at ref is populated —
`camera.lookAt(lookAtRef.current.position)` overwrites the orientation
(computed at the camera's freshly lerped position).  There is no guard on
any zoom state. -/
def parallaxFrameCam {Q : Type} (ease : EaseFns Q) (base : V3) (mouseX : ℚ)
    (lookTarget : Option V3) (cam : Cam Q) : Cam Q :=
  let target : V3 := ⟨base.x + mouseX * (1 / 2), base.y, base.z⟩
  let pos1 := lerpV3 cam.pos target (1 / 20)
  match lookTarget with
  | some t => { cam with pos := pos1, quat := ease.lookAtQ pos1 t }
  | none => { cam with pos := pos1 }

/- ===================================================================
   The `Frames` camera state machine (src/unnamed/part_000).

   React state and refs of the component: `selectedFrameId`,
   `clicked.current` (the object resolved by `getObjectByName`),
   `isAnimatingOut`, `isZoomed` (lifted to the parent via `setIsZoomed`),
   `targetFovRef`, the zoom-in animation targets, and — for the zoom-out
   choreography — the camera position, the running gsap tween
   (elapsed-time-in-tween and captured start position), the pending
   `gsap.delayedCall` (remaining seconds) and a counter of
   `clearActiveClasses()` invocations on the content registry.
   The zoom-in orientation target `zoomInTargetQ` is the look-at
   orientation determined by the stored pair (eye, center), so the pair
   itself is stored. -/
structure FramesState where
  selectedFrameId : Option String
  clicked : Option String
  isAnimatingOut : Bool
  isZoomed : Bool
  targetFov : ℚ
  zoomInEye : V3
  zoomInCenter : V3
  camPos : V3
  tween : Option (ℚ × V3)
  delay : Option ℚ
  clearCalls : ℕ
deriving DecidableEq, Repr

/-- Constant props of `Frames`: `initialFov`, `section2Position`,
`section2LookAtTarget`. -/
structure FramesCfg where
  initialFov : ℚ
  section2Position : V3
  section2LookAtTarget : V3
deriving DecidableEq, Repr

/-- `select(id)`: `setSelectedFrameId(id)` followed by the zoom-IN effect
(lines 90-114).  `clicked.current = ref.current?.getObjectByName(id)`;
when the object resolves, its parent's `localToWorld` maps
`(0, GOLDENRATIO/2, 1.25)` to the final zoom-in eye position and
`(0, GOLDENRATIO/2, 0.7)` to the frame-center look-at point
(GOLDENRATIO = 1), `setIsZoomed(true)` runs and the target FOV becomes
70.  When the lookup misses, the effect body is skipped entirely. -/
def selectFrame (scene : List (String × WorldT)) (id : String)
    (s : FramesState) : FramesState :=
  let s1 := { s with selectedFrameId := some id }
  match scene.lookup id with
  | none => { s1 with clicked := none }
  | some w =>
    { s1 with
      clicked := some id,
      zoomInEye := applyWT w ⟨0, 1 / 2, 5 / 4⟩,
      zoomInCenter := applyWT w ⟨0, 1 / 2, 7 / 10⟩,
      isZoomed := true,
      targetFov := 70 }

/-- `triggerZoomOut()` (lines 174-180): guarded by
`!isAnimatingOut && selectedFrameId`; on success it resets the target FOV
to `initialFov` and sets `isAnimatingOut`, which starts the zoom-out
effect's gsap position tween (duration 1.2, from the current camera
position). -/
def triggerZoomOut (cfg : FramesCfg) (s : FramesState) : FramesState :=
  if !s.isAnimatingOut && s.selectedFrameId.isSome then
    { s with
      targetFov := cfg.initialFov,
      isAnimatingOut := true,
      tween := some (0, s.camPos) }
  else s

/-- GSAP's `power1.inOut` easing (quadratic ease-in-out). -/
def power1InOut (p : ℚ) : ℚ :=
  if p < 1 / 2 then 2 * p ^ 2 else 1 - 2 * (1 - p) ^ 2

/-- The body of the `gsap.delayedCall(0.5, ...)` callback (lines 132-138):
`clearActiveClasses()` on the content registry, `setIsAnimatingOut(false)`,
`setIsZoomed(false)`, `setSelectedFrameId(null)` (which also leaves
`clicked.current` unresolved). -/
def zoomOutComplete (s : FramesState) : FramesState :=
  { s with
    delay := none,
    clearCalls := s.clearCalls + 1,
    isAnimatingOut := false,
    isZoomed := false,
    selectedFrameId := none,
    clicked := none }

/-- Let wall-clock time advance on a pending `gsap.delayedCall`: the
completion callback fires exactly when the remaining delay elapses. -/
def elapseDelay (s : FramesState) (dt : ℚ) : FramesState :=
  match s.delay with
  | none => s
  | some r => if dt < r then { s with delay := some (r - dt) } else zoomOutComplete s

/-- Let wall-clock time advance by `dt` on the zoom-out choreography
(lines 117-142): while the 1.2-second gsap position tween runs, the camera
position follows the `power1.inOut`-eased interpolation from the captured
start to `section2Position`; when the tween completes, `onComplete`
schedules `gsap.delayedCall(0.5, ...)`, and the remaining time is consumed
by the delay. -/
def elapse (cfg : FramesCfg) (s : FramesState) (dt : ℚ) : FramesState :=
  match s.tween with
  | none => elapseDelay s dt
  | some (e, start) =>
    if e + dt < 6 / 5 then
      { s with
        tween := some (e + dt, start),
        camPos := lerpV3 start cfg.section2Position (power1InOut ((e + dt) / (6 / 5))) }
    else
      elapseDelay
        { s with tween := none, camPos := cfg.section2Position, delay := some (1 / 2) }
        (dt - (6 / 5 - e))

/-- The `Frames` per-render-tick `useFrame` body (lines 144-157): damp the
FOV toward the target while the gap exceeds 0.01; when `isAnimatingOut`,
damp the orientation toward the look-at orientation of
`(section2Position, section2LookAtTarget)` (smoothing 0.5) — position is
owned by the gsap tween in that state; else when a frame is selected and
resolved, damp position toward the zoom-in eye and orientation toward the
look-at orientation of the stored (eye, center) pair (smoothing 0.4);
otherwise touch neither position nor orientation. -/
def framesFrameCam {Q : Type} (ease : EaseFns Q) (cfg : FramesCfg)
    (s : FramesState) (dt : ℚ) (cam : Cam Q) : Cam Q :=
  let fov1 :=
    if 1 / 100 < |cam.fov - s.targetFov| then ease.dampF cam.fov s.targetFov (2 / 5) dt
    else cam.fov
  if s.isAnimatingOut then
    { pos := cam.pos,
      quat := ease.dampQ cam.quat
        (ease.lookAtQ cfg.section2Position cfg.section2LookAtTarget) (1 / 2) dt,
      fov := fov1 }
  else if s.selectedFrameId.isSome && s.clicked.isSome then
    { pos := ease.damp3 cam.pos s.zoomInEye (2 / 5) dt,
      quat := ease.dampQ cam.quat (ease.lookAtQ s.zoomInEye s.zoomInCenter) (2 / 5) dt,
      fov := fov1 }
  else
    { cam with fov := fov1 }

/-- Guard under which the `Frames` `useFrame` body writes the camera
orientation (lines 151-156). -/
def framesWritesOrient (s : FramesState) : Bool :=
  s.isAnimatingOut || (s.selectedFrameId.isSome && s.clicked.isSome)

/-- Guard under which the `MouseCameraController` `useFrame` body writes
the camera orientation (lines 36-38): whenever the look-at ref is
populated — it never consults any zoom state. -/
def parallaxWritesOrient (lookAtRefSet : Bool) : Bool :=
  lookAtRefSet

/-- The camera state machine is not Idle: a zoom-out is animating or a
frame id is selected. -/
def notIdle (s : FramesState) : Bool :=
  s.isAnimatingOut || s.selectedFrameId.isSome

/-- Exactly one of two per-frame writers fires. -/
def exactlyOneWriter (a b : Bool) : Prop :=
  (a || b) = true ∧ (a && b) = false

/- ===================================================================
   Concrete states used by counterexamples and witnesses.
   =================================================================== -/

/-- An Idle machine state: nothing selected, nothing animating, FOV target
at the initial 60, camera at the `Canvas` start position `[0, 8, 5]`. -/
def idleState : FramesState :=
  ⟨none, none, false, false, 60, ⟨0, 0, 0⟩, ⟨0, 0, 0⟩, ⟨0, 8, 5⟩, none, none, 0⟩

/-- A ZoomIn state: frame "f1" selected and resolved. -/
def zoomInState : FramesState :=
  { idleState with
    selectedFrameId := some "f1", clicked := some "f1", isZoomed := true, targetFov := 70 }

/-- A ZoomingOut state: the zoom-out flag is up while "f1" is still the
selected frame. -/
def zoomingOutState : FramesState :=
  { zoomInState with isAnimatingOut := true }

/-- Concrete `Frames` props: initial FOV 60 and a secondary viewpoint. -/
def cfgEx : FramesCfg :=
  ⟨60, ⟨0, 4 / 5, 15 / 2⟩, ⟨0, 4 / 5, 0⟩⟩

/-- Concrete smoothing functions over `Q := ℚ`, for witnesses. -/
def easeEx : EaseFns ℚ :=
  ⟨fun v t _ _ => (v + t) / 2, fun a b _ _ => lerpV3 a b (1 / 2),
   fun q t _ _ => (q + t) / 2, fun a b => dotV3 a b⟩

/-- A concrete camera at the start position. -/
def camEx : Cam ℚ :=
  ⟨⟨0, 8, 5⟩, 0, 60⟩

/-- A camera displaced vertically from the parallax base position. -/
def camOff : Cam ℚ :=
  ⟨⟨0, 1, 0⟩, 0, 60⟩

/-- The parallax base position captured at attach time. -/
def baseEx : V3 :=
  ⟨0, 0, 0⟩

/- ===================================================================
   Particle simulation: `useOptimizedParticles(count, options)` from
   src/src/utils/useOptimizedParticles.jsx.  Positions and velocities are
   `Float32Array`s of length 3·count, logically one (position, velocity)
   pair of 3-vectors per particle; the update is applied independently to
   each particle, so it is modelled per particle, indexed by `i`.
   =================================================================== -/

/-- Configuration of the particle hook with its defaults
`{maxRadius = 0.8, floatSpeed = 0.5, floatAmplitude = 0.001,
dampening = 0.998, bounds.z = 0.15}` (lines 10-16). -/
structure PConfig where
  maxRadius : ℝ
  floatSpeed : ℝ
  floatAmplitude : ℝ
  dampening : ℝ
  boundsZ : ℝ

/-- The default configuration (every caller in the repo uses it). -/
noncomputable def defaultConfig : PConfig :=
  ⟨0.8, 0.5, 0.001, 0.998, 0.15⟩

/-- One particle: position `(px, py, pz)` at indices `3i, 3i+1, 3i+2` of
the position array, velocity likewise. -/
structure Particle where
  px : ℝ
  py : ℝ
  pz : ℝ
  vx : ℝ
  vy : ℝ
  vz : ℝ

/-- One entry of the `preCalculatedValues` table (lines 19-31); the `sin`
and `cos` fields are precomputed but never read by `updateParticles`. -/
structure PreCalc where
  sin : ℝ
  cos : ℝ
  speed : ℝ
  amplitude : ℝ
  phase : ℝ

/-- The table entry for particle `i`:
`{sin = sin(i·0.1), cos = cos(i·0.1), speed = floatSpeed + (i % 3)·0.3,
amplitude = floatAmplitude + (i % 2)·0.0005, phase = i·0.1}`. -/
noncomputable def preCalc (cfg : PConfig) (i : ℕ) : PreCalc :=
  { sin := Real.sin ((i : ℝ) * 0.1)
    cos := Real.cos ((i : ℝ) * 0.1)
    speed := cfg.floatSpeed + ((i % 3 : ℕ) : ℝ) * 0.3
    amplitude := cfg.floatAmplitude + ((i % 2 : ℕ) : ℝ) * 0.0005
    phase := (i : ℝ) * 0.1 }

/-- Update step, lines 59-61: `pos += vel` on all three axes. -/
def moveParticle (p : Particle) : Particle :=
  { p with px := p.px + p.vx, py := p.py + p.vy, pz := p.pz + p.vz }

/-- Update step, lines 63-67: with
`timeOffset = time * preCalc.speed + preCalc.phase`, add
`sin(timeOffset) * amplitude` to x, `cos(timeOffset * 0.7) * amplitude`
to y and `sin(timeOffset * 0.5) * amplitude * 0.5` to z. -/
noncomputable def forceParticle (cfg : PConfig) (i : ℕ) (time : ℝ) (p : Particle) :
    Particle :=
  let pre := preCalc cfg i
  let timeOffset := time * pre.speed + pre.phase
  { p with
    px := p.px + Real.sin timeOffset * pre.amplitude
    py := p.py + Real.cos (timeOffset * 0.7) * pre.amplitude
    pz := p.pz + Real.sin (timeOffset * 0.5) * pre.amplitude * 0.5 }

/-- Update step, lines 69-72: `vel *= dampening` on all three axes. -/
noncomputable def dampParticle (cfg : PConfig) (p : Particle) : Particle :=
  { p with
    vx := p.vx * cfg.dampening
    vy := p.vy * cfg.dampening
    vz := p.vz * cfg.dampening }

/-- `Math.atan2(y, x)`, the argument of the complex number `x + y·i`
(range `(-π, π]`, `atan2 0 0 = 0`, as in JS). -/
noncomputable def atan2 (y x : ℝ) : ℝ :=
  Complex.arg ⟨x, y⟩

/-- Update step, lines 74-84: when the planar distance
`sqrt(x² + y²)` exceeds `maxRadius`, relocate the point onto the circle of
radius `0.9 · maxRadius` at the same angle `atan2(y, x)` and scale the
planar velocity components by `-0.3`. -/
noncomputable def boundPlanar (cfg : PConfig) (p : Particle) : Particle :=
  if cfg.maxRadius < Real.sqrt (p.px * p.px + p.py * p.py) then
    { p with
      px := Real.cos (atan2 p.py p.px) * cfg.maxRadius * 0.9
      py := Real.sin (atan2 p.py p.px) * cfg.maxRadius * 0.9
      vx := p.vx * (-0.3)
      vy := p.vy * (-0.3) }
  else p

/-- Update step, lines 86-90: when `|z|` exceeds `bounds.z`, clamp `z` to
`Math.sign(z) * bounds.z` and scale `vz` by `-0.3`. -/
noncomputable def boundZ (cfg : PConfig) (p : Particle) : Particle :=
  if cfg.boundsZ < |p.pz| then
    { p with pz := Real.sign p.pz * cfg.boundsZ, vz := p.vz * (-0.3) }
  else p

/-- Both boundary policies, planar first, exactly as in the loop body. -/
noncomputable def boundParticle (cfg : PConfig) (p : Particle) : Particle :=
  boundZ cfg (boundPlanar cfg p)

/-- One full `updateParticles` tick for particle `i` at clock time `time`
(lines 49-92): move by velocity, add the oscillatory forcing, dampen the
velocity, then apply the boundary policies. -/
noncomputable def updateParticle (cfg : PConfig) (i : ℕ) (time : ℝ) (p : Particle) :
    Particle :=
  boundParticle cfg (dampParticle cfg (forceParticle cfg i time (moveParticle p)))

/-- Planar distance from the origin, `sqrt(x² + y²)` (line 75). -/
noncomputable def planarDist (p : Particle) : ℝ :=
  Real.sqrt (p.px * p.px + p.py * p.py)

/-- The documented initialization (lines 37-47): positions are
`(Math.random() - 0.5) * 2` on x and y and `(Math.random() - 0.5) * 0.3`
on z, velocities `(Math.random() - 0.5) * 0.001` on x and y and
`(Math.random() - 0.5) * 0.0002` on z, with `Math.random() ∈ [0, 1)`. -/
def validInitParticle (p : Particle) : Prop :=
  -1 ≤ p.px ∧ p.px < 1 ∧ -1 ≤ p.py ∧ p.py < 1 ∧
  -0.15 ≤ p.pz ∧ p.pz < 0.15 ∧
  -0.0005 ≤ p.vx ∧ p.vx < 0.0005 ∧ -0.0005 ≤ p.vy ∧ p.vy < 0.0005 ∧
  -0.0001 ≤ p.vz ∧ p.vz < 0.0001

/-- The whole particle system: one particle per index. -/
def PSystem (n : ℕ) :=
  Fin n → Particle

/-- One `updateParticles` tick applied to every particle. -/
noncomputable def updateSystem (cfg : PConfig) (time : ℝ) {n : ℕ} (s : PSystem n) :
    PSystem n :=
  fun i => updateParticle cfg i.val time (s i)

/-- Advance the system through a list of tick times. -/
noncomputable def advanceSystem (cfg : PConfig) {n : ℕ} (ts : List ℝ) (s : PSystem n) :
    PSystem n :=
  ts.foldl (fun st t => updateSystem cfg t st) s

/-- A particle the documented initialization can produce (for
`Math.random()` draws 0.95, 0.95, 0.5, 0.5, 0.5, 0.5), already outside
the planar bound: its planar distance is `sqrt 1.62 ≈ 1.27 > 0.8`. -/
noncomputable def pEx : Particle :=
  ⟨0.9, 0.9, 0, 0, 0, 0⟩

/-- The particle at the origin, at rest. -/
noncomputable def particle0 : Particle :=
  ⟨0, 0, 0, 0, 0, 0⟩

/-- A one-particle system holding `pEx`. -/
noncomputable def sysEx : PSystem 1 :=
  fun _ => pEx

/- ===================================================================
   Theorems.  Scheduler claims first (C2, C5, C10), then the camera
   machine (C3, C6, C7, C8), the parallax controller (C9), and the
   particle simulation (C1, C4).
   =================================================================== -/

/-- Helper for C2: the implementation state refines the spec-side state
(`frameRef.current` equals the sum of the deltas accumulated since the
last invocation, `lastTimeRef.current` is the last fire time). -/
theorem frRun_eq_specRun_aux (rate : ℚ) (h : 0 < rate) :
    ∀ (samples : List (ℚ × ℚ)) (st : FRState) (pending : List ℚ),
      st.acc = pending.sum →
      frRun rate true st samples = specRun rate st.lastTime pending samples := by
  intro samples
  induction samples with
  | nil => intro st pending _; rfl
  | cons sd rest ih =>
    intro st pending hacc
    obtain ⟨e, d⟩ := sd
    have hne : rate ≠ 0 := ne_of_gt h
    have hsum : (pending ++ [d]).sum = st.acc + d := by
      rw [hacc]; simp
    by_cases hf : 1 / rate ≤ st.acc + d
    · have hfc : fireCond rate (st.acc + d) = true := by
        simp only [fireCond, if_neg hne, decide_eq_true_eq]
        exact hf
      have h1 : frRun rate true st ((e, d) :: rest) =
          some (e - st.lastTime) :: frRun rate true ⟨0, e⟩ rest := by
        simp [frRun, frStep, hfc]
      have h2 : specRun rate st.lastTime pending ((e, d) :: rest) =
          some (e - st.lastTime) :: specRun rate e [] rest := by
        simp only [specRun]
        rw [if_pos (by rw [hsum]; exact hf)]
      rw [h1, h2]
      exact congrArg _ (ih ⟨0, e⟩ [] (by simp))
    · have hfc : fireCond rate (st.acc + d) = false := by
        simp only [fireCond, if_neg hne, decide_eq_false_iff_not]
        exact hf
      have h1 : frRun rate true st ((e, d) :: rest) =
          none :: frRun rate true ⟨st.acc + d, st.lastTime⟩ rest := by
        simp [frRun, frStep, hfc]
      have h2 : specRun rate st.lastTime pending ((e, d) :: rest) =
          none :: specRun rate st.lastTime (pending ++ [d]) rest := by
        simp only [specRun]
        rw [if_neg (by rw [hsum]; exact hf)]
      rw [h1, h2]
      exact congrArg _ (ih ⟨st.acc + d, st.lastTime⟩ (pending ++ [d]) hsum.symm)

/-- C2: for every subscription with rate `rateHz > 0` and every sequence
of render ticks, the scheduler invokes the callback on exactly those
ticks where the accumulated delta time has reached `1/rateHz`, passing a
sample whose `deltaTime` is the current elapsed time minus the elapsed
time of the previous invocation (the true wall-clock gap); after each
invocation the accumulator is reset to 0 and `lastFireTime` is set to the
current elapsed time.  Stated as: the implementation run coincides with
the spec-side run that keeps the explicit list of deltas accumulated
since the last invocation. -/
theorem C2_scheduler_refines_spec (rate : ℚ) (h : 0 < rate)
    (samples : List (ℚ × ℚ)) :
    frRun rate true ⟨0, 0⟩ samples = specRun rate 0 [] samples :=
  frRun_eq_specRun_aux rate h samples ⟨0, 0⟩ [] (by simp)

/-- Witness for C2 at rate 30 Hz over three concrete 60 Hz render ticks. -/
theorem C2_scheduler_refines_spec_witness :
    (0 : ℚ) < 30 ∧
      frRun 30 true ⟨0, 0⟩ [(1 / 60, 1 / 60), (1 / 30, 1 / 60), (1 / 20, 1 / 60)] =
        specRun 30 0 [] [(1 / 60, 1 / 60), (1 / 30, 1 / 60), (1 / 20, 1 / 60)] :=
  ⟨by norm_num, C2_scheduler_refines_spec 30 (by norm_num) _⟩

/-- C5 counterexample: `rateHz = 0` satisfies `rateHz ≤ 0`, but on a
render tick with delta 1/60 the callback is NOT invoked (in JS,
`1 / 0 = Infinity` and the accumulator never reaches it), contradicting
"the callback is invoked on every render tick" for every rate ≤ 0. -/
theorem C5_counterexample :
    (0 : ℚ) ≤ 0 ∧ frRun 0 true ⟨0, 0⟩ [(1 / 60, 1 / 60)] = [none] := by
  refine ⟨le_refl 0, ?_⟩
  simp [frRun, frStep, fireCond]

/-- C5 amended: for every strictly negative rate, the target interval
`1/rate` is negative, so with nonnegative render deltas the callback is
invoked on every render tick (and no error is ever raised — the step
function is total); for rate = 0 the callback never fires. -/
theorem C5_negative_rate_fires_every_tick (rate : ℚ) (h : rate < 0) (t0 : ℚ)
    (samples : List (ℚ × ℚ))
    (hd : samples.all (fun sd => decide (0 ≤ sd.2)) = true) :
    (frRun rate true ⟨0, t0⟩ samples).all Option.isSome = true := by
  induction samples generalizing t0 with
  | nil => rfl
  | cons sd rest ih =>
    obtain ⟨e, d⟩ := sd
    simp only [List.all_cons, Bool.and_eq_true] at hd
    obtain ⟨hd1, hd2⟩ := hd
    have hdge : (0 : ℚ) ≤ d := of_decide_eq_true hd1
    have hne : rate ≠ 0 := ne_of_lt h
    have hneg : 1 / rate < 0 := one_div_neg.mpr h
    have hfire : fireCond rate d = true := by
      simp only [fireCond, if_neg hne, decide_eq_true_eq]
      linarith
    have h1 : frRun rate true ⟨0, t0⟩ (((e, d)) :: rest) =
        some (e - (⟨0, t0⟩ : FRState).lastTime) :: frRun rate true ⟨0, e⟩ rest := by
      simp [frRun, frStep, hfire]
    rw [h1, List.all_cons]
    simp only [Option.isSome_some, Bool.true_and]
    exact ih e hd2

/-- Witness for the amended C5 at rate −5 over two concrete ticks. -/
theorem C5_negative_rate_fires_every_tick_witness :
    (-5 : ℚ) < 0 ∧
    ([(1 / 60, 1 / 60), (2 / 60, 1 / 60)] : List (ℚ × ℚ)).all
      (fun sd => decide (0 ≤ sd.2)) = true ∧
    (frRun (-5) true ⟨0, 0⟩ [(1 / 60, 1 / 60), (2 / 60, 1 / 60)]).all Option.isSome = true :=
  ⟨by norm_num, by norm_num [List.all_cons],
    C5_negative_rate_fires_every_tick (-5) (by norm_num) 0 _ (by norm_num [List.all_cons])⟩

/-- Helper for C10: the run produces exactly one output entry per render
tick. -/
theorem frRun_length (fps : ℚ) (en : Bool) (st : FRState)
    (samples : List (ℚ × ℚ)) :
    (frRun fps en st samples).length = samples.length := by
  induction samples generalizing st with
  | nil => rfl
  | cons sd rest ih =>
    obtain ⟨e, d⟩ := sd
    simp only [frRun, List.length_cons, ih]

/-- C10: the rate-limited scheduler invokes the callback at most once per
render tick (the number of firing ticks is at most the number of ticks),
and on each invocation it resets the accumulator to exactly 0 rather than
subtracting the target interval, so any accumulated surplus is discarded:
immediately after an invocation, a tick whose delta is below `1/rate`
never fires, no matter how large the surplus was. -/
theorem C10_no_catchup (rate : ℚ) (h : 0 < rate) (st : FRState)
    (samples : List (ℚ × ℚ)) (e d e2 d2 : ℚ)
    (hfire : fireCond rate (st.acc + d) = true) (hsmall : d2 < 1 / rate) :
    ((frRun rate true st samples).filter Option.isSome).length ≤ samples.length ∧
    (frStep rate true st e d).1.acc = 0 ∧
    (frStep rate true (frStep rate true st e d).1 e2 d2).2 = none := by
  refine ⟨?_, ?_, ?_⟩
  · calc ((frRun rate true st samples).filter Option.isSome).length
        ≤ (frRun rate true st samples).length := List.length_filter_le _ _
      _ = samples.length := frRun_length rate true st samples
  · simp [frStep, hfire]
  · have h1 : (frStep rate true st e d).1 = ⟨0, e⟩ := by
      simp [frStep, hfire]
    rw [h1]
    have hnf : fireCond rate d2 = false := by
      simp only [fireCond, if_neg (ne_of_gt h), decide_eq_false_iff_not]
      intro hc
      linarith
    simp [frStep, hnf]

/-- Witness for C10: a 30 Hz subscription, one long 1-second frame fires
and resets the accumulator to 0; the following 1/60 s tick does not fire. -/
theorem C10_no_catchup_witness :
    (0 : ℚ) < 30 ∧
    fireCond 30 ((⟨0, 0⟩ : FRState).acc + 1) = true ∧
    (1 / 60 : ℚ) < 1 / 30 ∧
    ((frRun 30 true ⟨0, 0⟩ [(1, 1)]).filter Option.isSome).length ≤ 1 ∧
    (frStep 30 true ⟨0, 0⟩ 1 1).1.acc = 0 ∧
    (frStep 30 true (frStep 30 true ⟨0, 0⟩ 1 1).1 2 (1 / 60)).2 = none := by
  have hf : fireCond 30 ((⟨0, 0⟩ : FRState).acc + 1) = true := by
    norm_num [fireCond]
  have h := C10_no_catchup 30 (by norm_num) ⟨0, 0⟩ [(1, 1)] 1 1 2 (1 / 60)
    hf (by norm_num)
  exact ⟨by norm_num, hf, by norm_num, h.1, h.2.1, h.2.2⟩

/-- C7: `triggerZoomOut` while Idle (no selected frame) or while already
animating out leaves the state literally unchanged, and a second call is
always absorbed: calling it twice produces exactly the state of calling
it once (the guard `!isAnimatingOut && selectedFrameId` fails after a
successful call, because the call raised `isAnimatingOut`). -/
theorem C7_trigger_noop_idempotent (cfg : FramesCfg) (s t : FramesState)
    (h : s.selectedFrameId = none ∨ s.isAnimatingOut = true) :
    triggerZoomOut cfg s = s ∧
    triggerZoomOut cfg (triggerZoomOut cfg t) = triggerZoomOut cfg t := by
  constructor
  · rcases h with h | h <;> simp [triggerZoomOut, h]
  · by_cases hg : (!t.isAnimatingOut && t.selectedFrameId.isSome) = true
    · have h1 : triggerZoomOut cfg t =
          { t with
            targetFov := cfg.initialFov,
            isAnimatingOut := true,
            tween := some (0, t.camPos) } := by
        unfold triggerZoomOut
        rw [if_pos hg]
      rw [h1]
      simp [triggerZoomOut]
    · have h1 : triggerZoomOut cfg t = t := by
        unfold triggerZoomOut
        rw [if_neg hg]
      rw [h1]
      exact h1

/-- Witness for C7: a call from the Idle state and a double call from a
ZoomingOut state. -/
theorem C7_trigger_noop_idempotent_witness :
    (idleState.selectedFrameId = none ∨ idleState.isAnimatingOut = true) ∧
    (triggerZoomOut cfgEx idleState = idleState ∧
      triggerZoomOut cfgEx (triggerZoomOut cfgEx zoomingOutState) =
        triggerZoomOut cfgEx zoomingOutState) :=
  ⟨Or.inl rfl, C7_trigger_noop_idempotent cfgEx idleState zoomingOutState (Or.inl rfl)⟩

/-- C8 counterexample: selecting the unresolvable id "ghost" from Idle
does NOT leave the machine's state unchanged — the selected frame id
becomes `some "ghost"`, and that is observable: `triggerZoomOut`, a no-op
before the failed select, now starts the zoom-out animation. -/
theorem C8_counterexample :
    selectFrame [] "ghost" idleState ≠ idleState ∧
    (triggerZoomOut cfgEx (selectFrame [] "ghost" idleState)).isAnimatingOut = true ∧
    idleState.isAnimatingOut = false ∧
    triggerZoomOut cfgEx idleState = idleState := by
  refine ⟨?_, rfl, rfl, rfl⟩
  intro hEq
  have : (selectFrame [] "ghost" idleState).selectedFrameId = idleState.selectedFrameId :=
    congrArg FramesState.selectedFrameId hEq
  simp [selectFrame, idleState] at this

/-- C8 amended: when the id resolves to no object, the select transition
stores the id (and clears the stale resolved-object ref) but computes no
zoom target and no look-at pair, leaves the zoomed flag and the
field-of-view target untouched, and the per-frame camera driver moves
neither the camera position nor its orientation; no error is raised (the
transition is a total function). -/
theorem C8_unknown_id {Q : Type} (ease : EaseFns Q) (cfg : FramesCfg)
    (scene : List (String × WorldT)) (id : String) (s : FramesState) (dt : ℚ)
    (cam : Cam Q) (hmiss : scene.lookup id = none)
    (hanim : s.isAnimatingOut = false) :
    selectFrame scene id s = { s with selectedFrameId := some id, clicked := none } ∧
    (framesFrameCam ease cfg (selectFrame scene id s) dt cam).pos = cam.pos ∧
    (framesFrameCam ease cfg (selectFrame scene id s) dt cam).quat = cam.quat ∧
    (selectFrame scene id s).targetFov = s.targetFov ∧
    (selectFrame scene id s).isZoomed = s.isZoomed ∧
    (selectFrame scene id s).zoomInEye = s.zoomInEye ∧
    (selectFrame scene id s).zoomInCenter = s.zoomInCenter := by
  have h1 : selectFrame scene id s =
      { s with selectedFrameId := some id, clicked := none } := by
    unfold selectFrame
    rw [hmiss]
  refine ⟨h1, ?_, ?_, by rw [h1], by rw [h1], by rw [h1], by rw [h1]⟩ <;>
    · rw [h1]
      unfold framesFrameCam
      simp [hanim]

/-- Witness for the amended C8: selecting "ghost" in an empty scene from
the Idle state. -/
theorem C8_unknown_id_witness :
    ([] : List (String × WorldT)).lookup "ghost" = none ∧
    idleState.isAnimatingOut = false ∧
    selectFrame [] "ghost" idleState =
      { idleState with selectedFrameId := some "ghost", clicked := none } ∧
    (framesFrameCam easeEx cfgEx (selectFrame [] "ghost" idleState) 1 camEx).pos =
      camEx.pos ∧
    (framesFrameCam easeEx cfgEx (selectFrame [] "ghost" idleState) 1 camEx).quat =
      camEx.quat := by
  have h := C8_unknown_id easeEx cfgEx [] "ghost" idleState 1 camEx rfl rfl
  exact ⟨rfl, rfl, h.1, h.2.1, h.2.2.1⟩

/-- C9 counterexample: with the camera displaced vertically from the
parallax base position, one parallax tick changes the camera's y
coordinate (the lerp pulls the whole vector toward
`(targetX, base.y, base.z)`), contradicting "leaving the camera's y and z
coordinates unchanged by this interpolation". -/
theorem C9_counterexample :
    (parallaxFrameCam easeEx baseEx 0 none camOff).pos.y ≠ camOff.pos.y := by
  norm_num [parallaxFrameCam, lerpV3, baseEx, camOff]

/-- C9 amended: every pointer-move sample with the cursor inside the
viewport yields a normalized coordinate in [-1, 1]; every render tick
lerps the camera position toward `(basePosition.x + normalizedX · 0.5,
basePosition.y, basePosition.z)` with fixed blend factor 0.05 — so x
moves toward `targetX` as claimed, but y and z are likewise interpolated
toward the base position rather than left unchanged. -/
theorem C9_parallax_step {Q : Type} (ease : EaseFns Q) (base : V3)
    (mouseX clientX w : ℚ) (look : Option V3) (cam : Cam Q)
    (h0 : 0 ≤ clientX) (h1 : clientX ≤ w) (h2 : 0 < w) :
    (-1 ≤ normalizedMouseX clientX w ∧ normalizedMouseX clientX w ≤ 1) ∧
    (parallaxFrameCam ease base mouseX look cam).pos.x =
      cam.pos.x + (base.x + mouseX * (1 / 2) - cam.pos.x) * (1 / 20) ∧
    (parallaxFrameCam ease base mouseX look cam).pos.y =
      cam.pos.y + (base.y - cam.pos.y) * (1 / 20) ∧
    (parallaxFrameCam ease base mouseX look cam).pos.z =
      cam.pos.z + (base.z - cam.pos.z) * (1 / 20) := by
  refine ⟨⟨?_, ?_⟩, ?_, ?_, ?_⟩
  · unfold normalizedMouseX
    have hq : 0 ≤ clientX / w := div_nonneg h0 (le_of_lt h2)
    linarith
  · unfold normalizedMouseX
    have hq : clientX / w ≤ 1 := (div_le_one h2).mpr h1
    linarith
  all_goals cases look <;> simp [parallaxFrameCam, lerpV3]

/-- Witness for the amended C9 with the cursor at the right viewport edge
and a camera off the base position. -/
theorem C9_parallax_step_witness :
    ((0 : ℚ) ≤ 200 ∧ (200 : ℚ) ≤ 200 ∧ (0 : ℚ) < 200) ∧
    (-1 ≤ normalizedMouseX 200 200 ∧ normalizedMouseX 200 200 ≤ 1) ∧
    (parallaxFrameCam easeEx baseEx 1 none camOff).pos.x =
      camOff.pos.x + (baseEx.x + 1 * (1 / 2) - camOff.pos.x) * (1 / 20) ∧
    (parallaxFrameCam easeEx baseEx 1 none camOff).pos.y =
      camOff.pos.y + (baseEx.y - camOff.pos.y) * (1 / 20) ∧
    (parallaxFrameCam easeEx baseEx 1 none camOff).pos.z =
      camOff.pos.z + (baseEx.z - camOff.pos.z) * (1 / 20) := by
  have h := C9_parallax_step easeEx baseEx 1 200 200 none camOff
    (by norm_num) (by norm_num) (by norm_num)
  exact ⟨⟨by norm_num, by norm_num, by norm_num⟩, h.1, h.2.1, h.2.2.1, h.2.2.2⟩

/-- C6 counterexample: in a render frame where the machine is ZoomingOut
(not Idle) and the parallax look-at ref is set, BOTH the machine's
`useFrame` and the parallax controller's `useFrame` write the camera
orientation — `MouseCameraController` has no zoom-state guard — so it is
not the case that exactly one of them writes. -/
theorem C6_counterexample :
    notIdle zoomingOutState = true ∧
    framesWritesOrient zoomingOutState = true ∧
    parallaxWritesOrient true = true ∧
    ¬ exactlyOneWriter (framesWritesOrient zoomingOutState) (parallaxWritesOrient true) := by
  refine ⟨rfl, rfl, rfl, ?_⟩
  intro hx
  exact absurd hx.2 (by decide)

/-- C6 amended: there is no exclusive orientation owner.  Whenever the
machine is ZoomingOut, its frame handler writes the orientation, the
parallax controller with a populated look-at ref also writes it in the
same frame (its guard never consults the machine's state), and with the
controller mounted first its look-at output is exactly the orientation
the machine's damped write then starts from — the parallax write
contributes to the final orientation instead of being suppressed. -/
theorem C6_no_exclusive_owner {Q : Type} (ease : EaseFns Q) (cfg : FramesCfg)
    (s : FramesState) (dt mouseX : ℚ) (base : V3) (tgt : V3) (cam : Cam Q)
    (h : s.isAnimatingOut = true) :
    framesWritesOrient s = true ∧
    parallaxWritesOrient true = true ∧
    (parallaxFrameCam ease base mouseX (some tgt) cam).quat =
      ease.lookAtQ
        (lerpV3 cam.pos ⟨base.x + mouseX * (1 / 2), base.y, base.z⟩ (1 / 20)) tgt ∧
    (framesFrameCam ease cfg s dt (parallaxFrameCam ease base mouseX (some tgt) cam)).quat =
      ease.dampQ
        (ease.lookAtQ
          (lerpV3 cam.pos ⟨base.x + mouseX * (1 / 2), base.y, base.z⟩ (1 / 20)) tgt)
        (ease.lookAtQ cfg.section2Position cfg.section2LookAtTarget) (1 / 2) dt := by
  refine ⟨by simp [framesWritesOrient, h], rfl, rfl, ?_⟩
  unfold framesFrameCam parallaxFrameCam
  simp [h]

/-- Witness for the amended C6 in a concrete ZoomingOut frame. -/
theorem C6_no_exclusive_owner_witness :
    zoomingOutState.isAnimatingOut = true ∧
    framesWritesOrient zoomingOutState = true ∧
    parallaxWritesOrient true = true ∧
    (parallaxFrameCam easeEx baseEx 0 (some ⟨0, 0, 0⟩) camEx).quat =
      easeEx.lookAtQ
        (lerpV3 camEx.pos ⟨baseEx.x + 0 * (1 / 2), baseEx.y, baseEx.z⟩ (1 / 20)) ⟨0, 0, 0⟩ ∧
    (framesFrameCam easeEx cfgEx zoomingOutState 1
        (parallaxFrameCam easeEx baseEx 0 (some ⟨0, 0, 0⟩) camEx)).quat =
      easeEx.dampQ
        (easeEx.lookAtQ
          (lerpV3 camEx.pos ⟨baseEx.x + 0 * (1 / 2), baseEx.y, baseEx.z⟩ (1 / 20)) ⟨0, 0, 0⟩)
        (easeEx.lookAtQ cfgEx.section2Position cfgEx.section2LookAtTarget) (1 / 2) 1 := by
  have h := C6_no_exclusive_owner easeEx cfgEx zoomingOutState 1 0 baseEx ⟨0, 0, 0⟩ camEx rfl
  exact ⟨rfl, h.1, h.2.1, h.2.2.1, h.2.2.2⟩

/-- Helper for C3: advancing time while the position tween is still
strictly inside its 1.2-second duration moves the camera along the
`power1.inOut`-eased interpolation. -/
theorem elapse_tween_running (cfg : FramesCfg) (s : FramesState) (e dt : ℚ)
    (start : V3) (hs : s.tween = some (e, start)) (hlt : e + dt < 6 / 5) :
    elapse cfg s dt =
      { s with
        tween := some (e + dt, start),
        camPos := lerpV3 start cfg.section2Position (power1InOut ((e + dt) / (6 / 5))) } := by
  unfold elapse
  rw [hs]
  dsimp only
  rw [if_pos hlt]

/-- Helper for C3: advancing time past the end of the tween parks the
camera at `section2Position`, schedules the 0.5-second delayed call and
hands the remaining time to it. -/
theorem elapse_tween_finished (cfg : FramesCfg) (s : FramesState) (e dt : ℚ)
    (start : V3) (hs : s.tween = some (e, start)) (hge : ¬ e + dt < 6 / 5) :
    elapse cfg s dt =
      elapseDelay
        { s with tween := none, camPos := cfg.section2Position, delay := some (1 / 2) }
        (dt - (6 / 5 - e)) := by
  unfold elapse
  rw [hs]
  dsimp only
  rw [if_neg hge]

/-- Helper for C3: a pending delayed call with time to spare just counts
down. -/
theorem elapseDelay_running (s : FramesState) (r dt : ℚ) (hs : s.delay = some r)
    (h : dt < r) : elapseDelay s dt = { s with delay := some (r - dt) } := by
  unfold elapseDelay
  rw [hs]
  dsimp only
  rw [if_pos h]

/-- Helper for C3: a pending delayed call whose remaining time elapses
fires the completion callback. -/
theorem elapseDelay_fires (s : FramesState) (r dt : ℚ) (hs : s.delay = some r)
    (h : ¬ dt < r) : elapseDelay s dt = zoomOutComplete s := by
  unfold elapseDelay
  rw [hs]
  dsimp only
  rw [if_neg h]

/-- Helper for C3: with no tween and no pending delayed call, time
passing changes nothing. -/
theorem elapse_inert (cfg : FramesCfg) (s : FramesState) (dt : ℚ)
    (h1 : s.tween = none) (h2 : s.delay = none) : elapse cfg s dt = s := by
  unfold elapse
  rw [h1]
  dsimp only
  unfold elapseDelay
  rw [h2]

/-- C3: firing `triggerZoomOut` from a ZoomIn state (a frame selected,
not yet animating out, no tween or delayed call pending) raises the
animating-out flag and resets the FOV target; the camera position is then
driven by the `power1.inOut`-eased tween of fixed duration 1.2 toward the
secondary viewpoint (during which the clear-markers count, selected id
and flag are untouched); after the tween a further fixed 0.5 delay
elapses with the camera parked at the secondary viewpoint and still no
completion effects; and only once 1.2 + 0.5 have elapsed is the content
registry's clear-active-markers operation invoked — exactly once, as
further time adds nothing — with the animating-out flag cleared and the
selected frame id reset to null. -/
theorem C3_zoom_out_sequence (cfg : FramesCfg) (s : FramesState) (t u v w : ℚ)
    (hsel : s.selectedFrameId.isSome = true) (hanim : s.isAnimatingOut = false)
    (htw : s.tween = none) (hdl : s.delay = none)
    (ht : t < 6 / 5) (hu1 : 6 / 5 ≤ u) (hu2 : u < 17 / 10) (hv : 17 / 10 ≤ v) :
    (triggerZoomOut cfg s).isAnimatingOut = true ∧
    (triggerZoomOut cfg s).targetFov = cfg.initialFov ∧
    (elapse cfg (triggerZoomOut cfg s) t).camPos =
      lerpV3 s.camPos cfg.section2Position (power1InOut (t / (6 / 5))) ∧
    (elapse cfg (triggerZoomOut cfg s) t).clearCalls = s.clearCalls ∧
    (elapse cfg (triggerZoomOut cfg s) t).selectedFrameId = s.selectedFrameId ∧
    (elapse cfg (triggerZoomOut cfg s) t).isAnimatingOut = true ∧
    (elapse cfg (triggerZoomOut cfg s) u).camPos = cfg.section2Position ∧
    (elapse cfg (triggerZoomOut cfg s) u).clearCalls = s.clearCalls ∧
    (elapse cfg (triggerZoomOut cfg s) u).selectedFrameId = s.selectedFrameId ∧
    (elapse cfg (triggerZoomOut cfg s) u).isAnimatingOut = true ∧
    (elapse cfg (triggerZoomOut cfg s) v).clearCalls = s.clearCalls + 1 ∧
    (elapse cfg (triggerZoomOut cfg s) v).isAnimatingOut = false ∧
    (elapse cfg (triggerZoomOut cfg s) v).selectedFrameId = none ∧
    (elapse cfg (triggerZoomOut cfg s) v).isZoomed = false ∧
    (elapse cfg (triggerZoomOut cfg s) v).camPos = cfg.section2Position ∧
    elapse cfg (elapse cfg (triggerZoomOut cfg s) v) w =
      elapse cfg (triggerZoomOut cfg s) v := by
  have hTrig : triggerZoomOut cfg s =
      { s with
        targetFov := cfg.initialFov,
        isAnimatingOut := true,
        tween := some (0, s.camPos) } := by
    unfold triggerZoomOut
    rw [if_pos (by rw [hanim, hsel]; rfl)]
  have hT : elapse cfg (triggerZoomOut cfg s) t =
      { s with
        targetFov := cfg.initialFov,
        isAnimatingOut := true,
        tween := some (0 + t, s.camPos),
        camPos := lerpV3 s.camPos cfg.section2Position (power1InOut ((0 + t) / (6 / 5))) } := by
    rw [hTrig]
    exact elapse_tween_running cfg _ 0 t s.camPos rfl (by linarith)
  have hU : elapse cfg (triggerZoomOut cfg s) u =
      { s with
        targetFov := cfg.initialFov,
        isAnimatingOut := true,
        tween := none,
        camPos := cfg.section2Position,
        delay := some (1 / 2 - (u - (6 / 5 - 0))) } := by
    rw [hTrig]
    rw [elapse_tween_finished cfg _ 0 u s.camPos rfl (by intro hc; linarith)]
    exact elapseDelay_running _ (1 / 2) _ rfl (by linarith)
  have hVmid : elapse cfg (triggerZoomOut cfg s) v =
      zoomOutComplete
        { s with
          targetFov := cfg.initialFov,
          isAnimatingOut := true,
          tween := none,
          camPos := cfg.section2Position,
          delay := some (1 / 2) } := by
    rw [hTrig]
    rw [elapse_tween_finished cfg _ 0 v s.camPos rfl (by intro hc; linarith)]
    exact elapseDelay_fires _ (1 / 2) _ rfl (by intro hc; linarith)
  have hV : elapse cfg (triggerZoomOut cfg s) v =
      { s with
        targetFov := cfg.initialFov,
        isAnimatingOut := false,
        isZoomed := false,
        selectedFrameId := none,
        clicked := none,
        tween := none,
        camPos := cfg.section2Position,
        delay := none,
        clearCalls := s.clearCalls + 1 } := by
    rw [hVmid]
    rfl
  refine ⟨by rw [hTrig], by rw [hTrig], ?_, by rw [hT], by rw [hT], by rw [hT],
    by rw [hU], by rw [hU], by rw [hU], by rw [hU],
    by rw [hV], by rw [hV], by rw [hV], by rw [hV], by rw [hV], ?_⟩
  · rw [hT]
    norm_num
  · rw [hV]
    exact elapse_inert cfg _ w rfl rfl

/-- Witness for C3 from a concrete ZoomIn state: probe the tween at
t = 0.6, the delay window at u = 1.3, completion at v = 2 and stability
for one further second. -/
theorem C3_zoom_out_sequence_witness :
    (zoomInState.selectedFrameId.isSome = true ∧ zoomInState.isAnimatingOut = false ∧
      zoomInState.tween = none ∧ zoomInState.delay = none) ∧
    ((3 / 5 : ℚ) < 6 / 5 ∧ (6 / 5 : ℚ) ≤ 13 / 10 ∧ (13 / 10 : ℚ) < 17 / 10 ∧
      (17 / 10 : ℚ) ≤ 2) ∧
    (elapse cfgEx (triggerZoomOut cfgEx zoomInState) (13 / 10)).camPos =
      cfgEx.section2Position ∧
    (elapse cfgEx (triggerZoomOut cfgEx zoomInState) 2).clearCalls =
      zoomInState.clearCalls + 1 ∧
    (elapse cfgEx (triggerZoomOut cfgEx zoomInState) 2).selectedFrameId = none ∧
    (elapse cfgEx (triggerZoomOut cfgEx zoomInState) 2).isAnimatingOut = false ∧
    elapse cfgEx (elapse cfgEx (triggerZoomOut cfgEx zoomInState) 2) 1 =
      elapse cfgEx (triggerZoomOut cfgEx zoomInState) 2 := by
  have h := C3_zoom_out_sequence cfgEx zoomInState (3 / 5) (13 / 10) 2 1
    rfl rfl rfl rfl (by norm_num) (by norm_num) (by norm_num) (by norm_num)
  obtain ⟨-, -, -, -, -, -, hu1, -, -, -, hv1, hv2, hv3, -, -, hw⟩ := h
  exact ⟨⟨rfl, rfl, rfl, rfl⟩,
    ⟨by norm_num, by norm_num, by norm_num, by norm_num⟩, hu1, hv1, hv3, hv2, hw⟩

/-- Helper for C1: the planar boundary policy leaves every particle at
planar distance at most `maxRadius` — a clamped particle sits exactly at
`0.9 · maxRadius` from the origin. -/
theorem boundPlanar_planarDist (cfg : PConfig) (h : 0 ≤ cfg.maxRadius)
    (p : Particle) : planarDist (boundPlanar cfg p) ≤ cfg.maxRadius := by
  unfold planarDist boundPlanar
  by_cases hlt : cfg.maxRadius < Real.sqrt (p.px * p.px + p.py * p.py)
  · rw [if_pos hlt]
    dsimp only
    have hid := Real.sin_sq_add_cos_sq (atan2 p.py p.px)
    have hcs :
        Real.cos (atan2 p.py p.px) * cfg.maxRadius * 0.9 *
            (Real.cos (atan2 p.py p.px) * cfg.maxRadius * 0.9) +
          Real.sin (atan2 p.py p.px) * cfg.maxRadius * 0.9 *
            (Real.sin (atan2 p.py p.px) * cfg.maxRadius * 0.9) =
        (cfg.maxRadius * 0.9) ^ 2 := by
      linear_combination (cfg.maxRadius * 0.9) ^ 2 * hid
    rw [hcs, Real.sqrt_sq (by positivity)]
    nlinarith
  · rw [if_neg hlt]
    exact le_of_not_lt hlt

/-- Helper for C1: the z boundary policy leaves `|z|` at most `boundsZ`. -/
theorem boundZ_absPz (cfg : PConfig) (h : 0 ≤ cfg.boundsZ) (p : Particle) :
    |(boundZ cfg p).pz| ≤ cfg.boundsZ := by
  unfold boundZ
  by_cases hlt : cfg.boundsZ < |p.pz|
  · rw [if_pos hlt]
    dsimp only
    rcases lt_trichotomy p.pz 0 with hz | hz | hz
    · rw [Real.sign_of_neg hz, show (-1 : ℝ) * cfg.boundsZ = -cfg.boundsZ by ring,
        abs_neg, abs_of_nonneg h]
    · rw [hz, Real.sign_zero, zero_mul, abs_zero]
      exact h
    · rw [Real.sign_of_pos hz, one_mul, abs_of_nonneg h]
  · rw [if_neg hlt]
    exact le_of_not_lt hlt

/-- Helper for C1: the z boundary policy does not move the particle in
the plane. -/
theorem planarDist_boundZ (cfg : PConfig) (p : Particle) :
    planarDist (boundZ cfg p) = planarDist p := by
  unfold planarDist boundZ
  by_cases hlt : cfg.boundsZ < |p.pz|
  · rw [if_pos hlt]
  · rw [if_neg hlt]

/-- Helper for C1: one full update tick leaves any particle inside both
bounds, whatever its incoming state. -/
theorem updateParticle_bounds (cfg : PConfig) (h1 : 0 ≤ cfg.maxRadius)
    (h2 : 0 ≤ cfg.boundsZ) (i : ℕ) (t : ℝ) (p : Particle) :
    planarDist (updateParticle cfg i t p) ≤ cfg.maxRadius ∧
    |(updateParticle cfg i t p).pz| ≤ cfg.boundsZ := by
  unfold updateParticle boundParticle
  exact ⟨by rw [planarDist_boundZ]; exact boundPlanar_planarDist cfg h1 _,
    boundZ_absPz cfg h2 _⟩

/-- Helper for C1: induction along a nonempty tick list. -/
theorem advanceSystem_bounds_aux (cfg : PConfig) (h1 : 0 ≤ cfg.maxRadius)
    (h2 : 0 ≤ cfg.boundsZ) {n : ℕ} (rest : List ℝ) :
    ∀ (t : ℝ) (s : PSystem n) (i : Fin n),
      planarDist (advanceSystem cfg (t :: rest) s i) ≤ cfg.maxRadius ∧
      |(advanceSystem cfg (t :: rest) s i).pz| ≤ cfg.boundsZ := by
  induction rest with
  | nil =>
    intro t s i
    exact updateParticle_bounds cfg h1 h2 i.val t (s i)
  | cons t2 rest2 ih =>
    intro t s i
    exact ih t2 (updateSystem cfg t s) i

/-- C1 counterexample: the documented initialization can place a particle
at `(0.9, 0.9, 0)` at rest, whose planar distance `sqrt 1.62 ≈ 1.27`
exceeds the default `maxRadius = 0.8` by more than 0.4 — far beyond any
small ε — so the claimed bound does NOT already hold for the initial
positions before the first advance. -/
theorem C1_counterexample :
    validInitParticle pEx ∧ defaultConfig.maxRadius + 0.4 < planarDist pEx := by
  constructor
  · norm_num [validInitParticle, pEx]
  · have hP : planarDist pEx = Real.sqrt 1.62 := by
      norm_num [planarDist, pEx]
    have h12 : (1.2 : ℝ) < Real.sqrt 1.62 :=
      (Real.lt_sqrt (by norm_num)).mpr (by norm_num)
    calc defaultConfig.maxRadius + 0.4 = 1.2 := by norm_num [defaultConfig]
      _ < Real.sqrt 1.62 := h12
      _ = planarDist pEx := hP.symm

/-- C1 amended: for every configuration with nonnegative `maxRadius` and
`boundsZ`, every particle state, every particle index and every nonempty
sequence of advance ticks, the resulting particle satisfies planar
distance ≤ `maxRadius` and `|z|` ≤ `boundsZ` exactly (no ε needed); the
bound holds after every tick, but not necessarily for the initial
positions, which are sampled in `[-1, 1)²` in the plane. -/
theorem C1_bounded (cfg : PConfig) (h1 : 0 ≤ cfg.maxRadius)
    (h2 : 0 ≤ cfg.boundsZ) {n : ℕ} (ts : List ℝ) (hts : ts ≠ [])
    (s : PSystem n) (i : Fin n) :
    planarDist (advanceSystem cfg ts s i) ≤ cfg.maxRadius ∧
    |(advanceSystem cfg ts s i).pz| ≤ cfg.boundsZ := by
  cases ts with
  | nil => exact absurd rfl hts
  | cons t rest => exact advanceSystem_bounds_aux cfg h1 h2 rest t s i

/-- Witness for the amended C1: one tick at time 0 on the one-particle
system holding the out-of-bounds initial particle `pEx`. -/
theorem C1_bounded_witness :
    (0 ≤ defaultConfig.maxRadius ∧ 0 ≤ defaultConfig.boundsZ ∧
      ([(0 : ℝ)] ≠ ([] : List ℝ))) ∧
    planarDist (advanceSystem defaultConfig [(0 : ℝ)] sysEx 0) ≤
      defaultConfig.maxRadius ∧
    |(advanceSystem defaultConfig [(0 : ℝ)] sysEx 0).pz| ≤ defaultConfig.boundsZ := by
  have h := C1_bounded defaultConfig (by norm_num [defaultConfig])
    (by norm_num [defaultConfig]) [(0 : ℝ)] (by simp) sysEx 0
  exact ⟨⟨by norm_num [defaultConfig], by norm_num [defaultConfig], by simp⟩, h.1, h.2⟩

/-- Helper for C4: unfold one update tick into the explicit forcing
increments (with the table entries expanded as functions of the index)
followed by the boundary policies. -/
theorem updateParticle_decompose (cfg : PConfig) (i : ℕ) (t : ℝ) (p : Particle) :
    updateParticle cfg i t p =
      boundParticle cfg
        { px := p.px + p.vx +
            Real.sin (t * (cfg.floatSpeed + ((i % 3 : ℕ) : ℝ) * 0.3) + (i : ℝ) * 0.1) *
              (cfg.floatAmplitude + ((i % 2 : ℕ) : ℝ) * 0.0005),
          py := p.py + p.vy +
            Real.cos
                ((t * (cfg.floatSpeed + ((i % 3 : ℕ) : ℝ) * 0.3) + (i : ℝ) * 0.1) * 0.7) *
              (cfg.floatAmplitude + ((i % 2 : ℕ) : ℝ) * 0.0005),
          pz := p.pz + p.vz +
            Real.sin
                ((t * (cfg.floatSpeed + ((i % 3 : ℕ) : ℝ) * 0.3) + (i : ℝ) * 0.1) * 0.5) *
              (cfg.floatAmplitude + ((i % 2 : ℕ) : ℝ) * 0.0005) * 0.5,
          vx := p.vx * cfg.dampening,
          vy := p.vy * cfg.dampening,
          vz := p.vz * cfg.dampening } :=
  rfl

/-- Helper for C4: a particle inside the planar bound is not clamped. -/
theorem boundPlanar_of_le (cfg : PConfig) (p : Particle)
    (h : Real.sqrt (p.px * p.px + p.py * p.py) ≤ cfg.maxRadius) :
    boundPlanar cfg p = p := by
  unfold boundPlanar
  rw [if_neg (not_lt.mpr h)]

/-- Helper for C4: a particle inside the z bound is not clamped. -/
theorem boundZ_of_le (cfg : PConfig) (p : Particle) (h : |p.pz| ≤ cfg.boundsZ) :
    boundZ cfg p = p := by
  unfold boundZ
  rw [if_neg (not_lt.mpr h)]

/-- C4: the amended forcing formula.  On each tick at elapsed time `t`,
before the boundary policies the particle's position is incremented by
the velocity plus the oscillatory forcing
`sin(t·speed + phase) · amplitude` on x,
`cos((t·speed + phase) · 0.7) · amplitude` on y and
`sin((t·speed + phase) · 0.5) · amplitude · 0.5` on z — the phase is
scaled together with `t·speed` by the 0.7 and 0.5 factors, unlike the
claim's `cos(t·speed·0.7 + phase)` / `sin(t·speed·0.5 + phase)` — with
the table entries `phase = i·0.1`, `speed = floatSpeed + (i mod 3)·0.3`,
`amplitude = floatAmplitude + (i mod 2)·0.0005`, and the velocity is
multiplied by `dampening`. -/
theorem C4_forcing_formula (cfg : PConfig) (i : ℕ) (t : ℝ) (p : Particle) :
    updateParticle cfg i t p =
      boundParticle cfg
        { px := p.px + p.vx +
            Real.sin (t * (cfg.floatSpeed + ((i % 3 : ℕ) : ℝ) * 0.3) + (i : ℝ) * 0.1) *
              (cfg.floatAmplitude + ((i % 2 : ℕ) : ℝ) * 0.0005),
          py := p.py + p.vy +
            Real.cos
                ((t * (cfg.floatSpeed + ((i % 3 : ℕ) : ℝ) * 0.3) + (i : ℝ) * 0.1) * 0.7) *
              (cfg.floatAmplitude + ((i % 2 : ℕ) : ℝ) * 0.0005),
          pz := p.pz + p.vz +
            Real.sin
                ((t * (cfg.floatSpeed + ((i % 3 : ℕ) : ℝ) * 0.3) + (i : ℝ) * 0.1) * 0.5) *
              (cfg.floatAmplitude + ((i % 2 : ℕ) : ℝ) * 0.0005) * 0.5,
          vx := p.vx * cfg.dampening,
          vy := p.vy * cfg.dampening,
          vz := p.vz * cfg.dampening } :=
  updateParticle_decompose cfg i t p

/-- C4 counterexample: for particle 1 at rest at the origin at time 0,
the tick adds `cos 0.07 · 0.0015` to y (the code computes
`cos(timeOffset · 0.7)` with `timeOffset = 0·speed + 0.1`), whereas the
claimed formula `cos(t·speed·0.7 + phase) · amplitude` gives
`cos 0.1 · 0.0015`, and `cos 0.07 ≠ cos 0.1`. -/
theorem C4_counterexample :
    (updateParticle defaultConfig 1 0 particle0).py ≠
      Real.cos (0 * (preCalc defaultConfig 1).speed * 0.7 + (preCalc defaultConfig 1).phase) *
        (preCalc defaultConfig 1).amplitude := by
  have harg :
      ({ px := particle0.px + particle0.vx +
            Real.sin (0 * (defaultConfig.floatSpeed + ((1 % 3 : ℕ) : ℝ) * 0.3) +
                ((1 : ℕ) : ℝ) * 0.1) *
              (defaultConfig.floatAmplitude + ((1 % 2 : ℕ) : ℝ) * 0.0005),
          py := particle0.py + particle0.vy +
            Real.cos
                ((0 * (defaultConfig.floatSpeed + ((1 % 3 : ℕ) : ℝ) * 0.3) +
                    ((1 : ℕ) : ℝ) * 0.1) * 0.7) *
              (defaultConfig.floatAmplitude + ((1 % 2 : ℕ) : ℝ) * 0.0005),
          pz := particle0.pz + particle0.vz +
            Real.sin
                ((0 * (defaultConfig.floatSpeed + ((1 % 3 : ℕ) : ℝ) * 0.3) +
                    ((1 : ℕ) : ℝ) * 0.1) * 0.5) *
              (defaultConfig.floatAmplitude + ((1 % 2 : ℕ) : ℝ) * 0.0005) * 0.5,
          vx := particle0.vx * defaultConfig.dampening,
          vy := particle0.vy * defaultConfig.dampening,
          vz := particle0.vz * defaultConfig.dampening } : Particle) =
      ⟨Real.sin 0.1 * 0.0015, Real.cos 0.07 * 0.0015,
        Real.sin 0.05 * 0.0015 * 0.5, 0, 0, 0⟩ := by
    norm_num [particle0, defaultConfig, Particle.mk.injEq]
  have hq : updateParticle defaultConfig 1 0 particle0 =
      boundParticle defaultConfig
        ⟨Real.sin 0.1 * 0.0015, Real.cos 0.07 * 0.0015,
          Real.sin 0.05 * 0.0015 * 0.5, 0, 0, 0⟩ := by
    rw [updateParticle_decompose]
    exact congrArg (boundParticle defaultConfig) harg
  have hs1 : Real.sin 0.1 * 0.0015 * (Real.sin 0.1 * 0.0015) +
      Real.cos 0.07 * 0.0015 * (Real.cos 0.07 * 0.0015) ≤ 0.64 := by
    have a1 : Real.sin 0.1 ≤ 1 := Real.sin_le_one _
    have a2 : -1 ≤ Real.sin 0.1 := Real.neg_one_le_sin _
    have a3 : Real.cos 0.07 ≤ 1 := Real.cos_le_one _
    have a4 : -1 ≤ Real.cos 0.07 := Real.neg_one_le_cos _
    nlinarith
  have hsq : Real.sqrt (Real.sin 0.1 * 0.0015 * (Real.sin 0.1 * 0.0015) +
      Real.cos 0.07 * 0.0015 * (Real.cos 0.07 * 0.0015)) ≤ 0.8 := by
    calc Real.sqrt (Real.sin 0.1 * 0.0015 * (Real.sin 0.1 * 0.0015) +
          Real.cos 0.07 * 0.0015 * (Real.cos 0.07 * 0.0015))
        ≤ Real.sqrt 0.64 := Real.sqrt_le_sqrt hs1
      _ = 0.8 := by
          rw [show (0.64 : ℝ) = 0.8 ^ 2 by norm_num, Real.sqrt_sq (by norm_num)]
  have hzb : |Real.sin 0.05 * 0.0015 * 0.5| ≤ 0.15 := by
    rw [abs_mul, abs_mul,
      abs_of_nonneg (by norm_num : (0 : ℝ) ≤ 0.0015),
      abs_of_nonneg (by norm_num : (0 : ℝ) ≤ 0.5)]
    have a1 : |Real.sin 0.05| ≤ 1 :=
      abs_le.mpr ⟨Real.neg_one_le_sin _, Real.sin_le_one _⟩
    nlinarith [abs_nonneg (Real.sin 0.05)]
  have hBP : boundPlanar defaultConfig
      (⟨Real.sin 0.1 * 0.0015, Real.cos 0.07 * 0.0015,
        Real.sin 0.05 * 0.0015 * 0.5, 0, 0, 0⟩ : Particle) =
      ⟨Real.sin 0.1 * 0.0015, Real.cos 0.07 * 0.0015,
        Real.sin 0.05 * 0.0015 * 0.5, 0, 0, 0⟩ := by
    refine boundPlanar_of_le _ _ ?_
    show Real.sqrt (Real.sin 0.1 * 0.0015 * (Real.sin 0.1 * 0.0015) +
        Real.cos 0.07 * 0.0015 * (Real.cos 0.07 * 0.0015)) ≤ defaultConfig.maxRadius
    calc Real.sqrt (Real.sin 0.1 * 0.0015 * (Real.sin 0.1 * 0.0015) +
          Real.cos 0.07 * 0.0015 * (Real.cos 0.07 * 0.0015)) ≤ 0.8 := hsq
      _ = defaultConfig.maxRadius := by norm_num [defaultConfig]
  have hBZ : boundZ defaultConfig
      (⟨Real.sin 0.1 * 0.0015, Real.cos 0.07 * 0.0015,
        Real.sin 0.05 * 0.0015 * 0.5, 0, 0, 0⟩ : Particle) =
      ⟨Real.sin 0.1 * 0.0015, Real.cos 0.07 * 0.0015,
        Real.sin 0.05 * 0.0015 * 0.5, 0, 0, 0⟩ := by
    refine boundZ_of_le _ _ ?_
    show |Real.sin 0.05 * 0.0015 * 0.5| ≤ defaultConfig.boundsZ
    calc |Real.sin 0.05 * 0.0015 * 0.5| ≤ 0.15 := hzb
      _ = defaultConfig.boundsZ := by norm_num [defaultConfig]
  have hL : (updateParticle defaultConfig 1 0 particle0).py = Real.cos 0.07 * 0.0015 := by
    rw [hq]
    unfold boundParticle
    rw [hBP, hBZ]
  have hR : Real.cos (0 * (preCalc defaultConfig 1).speed * 0.7 +
        (preCalc defaultConfig 1).phase) * (preCalc defaultConfig 1).amplitude =
      Real.cos 0.1 * 0.0015 := by
    norm_num [preCalc, defaultConfig]
  rw [hL, hR]
  have hlt : Real.cos 0.1 < Real.cos 0.07 :=
    Real.cos_lt_cos_of_nonneg_of_le_pi (by norm_num)
      (by have := Real.pi_gt_three; linarith) (by norm_num)
  intro hcontra
  have : Real.cos 0.07 = Real.cos 0.1 :=
    mul_right_cancel₀ (by norm_num : (0.0015 : ℝ) ≠ 0) hcontra
  linarith

end ContactPage
